import Mathlib

/-!
Verification of the async-imap client core against its specification.

This file gives a shallow embedding, in Lean, of the parts of the
async-imap source relevant to the checked claims:

* the parsed server-response data model (`Response`, mirroring the
  `imap_proto::Response` shapes the source matches on),
* unsolicited-response routing (`handle_unilateral` from `src/parse.rs`),
* tagged-completion correlation (`Connection::check_ok` from `src/client.rs`),
* the IDLE wait loop (`Handle::wait` from `src/extensions/idle.rs`),
* the AUTHENTICATE handshake (`Client::do_auth_handshake` from `src/client.rs`),
* `Session::append` (`src/client.rs`),
* string validation and command construction (`validate_str`, the `quote!`
  macro, `Session::select`, `Session::mv`, `Session::copy`),
* the request-id generator (`src/types/id_generator.rs`),
* the capability set (`src/types/capabilities.rs`),
* the read buffer and the framed stream (`Buffer`, `ImapStream::decode`,
  `ImapStream::poll_next` from `src/imap_stream.rs`).

Stateful Rust code is embedded as explicit state passing: the async
response stream becomes a list of items that reads pop, the bounded
unsolicited channel becomes the list of messages enqueued so far, and
fallible operations return `Except`.  Machine integers are modelled as
`Nat` (the counters involved — buffer sizes, request ids — never reach
`u64`/`usize` wrap-around in any execution the source admits, since the
buffer is capped at 512 MiB and the id counter only increments by 1).
-/

namespace AsyncImap

/-! ## Parsed responses (the `imap_proto::Response` shapes matched by the source) -/

/-- Completion status of a server response (`imap_proto::Status`). -/
inductive Status where
  | ok
  | no
  | bad
  | preAuth
  | bye
deriving DecidableEq

/-- The mailbox-datum shapes `handle_unilateral` distinguishes
(`imap_proto::MailboxDatum`); all other variants behave like `otherDatum`. -/
inductive MailboxDatum where
  | statusD (mailbox : String)
  | recent (n : Nat)
  | existsN (n : Nat)
  | otherDatum
deriving DecidableEq

/-- A parsed server response (`imap_proto::Response`), restricted to the
shapes the embedded client code matches on; `other` stands for every
remaining variant (all of them fall into catch-all match arms). -/
inductive Response where
  | done (tag : String) (status : Status) (code : Option String)
      (information : Option String)
  | data (status : Status) (code : Option String) (information : Option String)
  | continueReq (information : Option String)
  | mailboxData (d : MailboxDatum)
  | expunge (n : Nat)
  | fetch (n : Nat)
  | other
deriving DecidableEq

/-- `UnsolicitedResponse` (`src/types`), restricted to the variants
`handle_unilateral` actually constructs. -/
inductive UnsolicitedResponse where
  | statusR (mailbox : String)
  | recent (n : Nat)
  | existsR (n : Nat)
  | expunge (n : Nat)
deriving DecidableEq

/-- The client error enum (`src/error.rs`).  `bad` and `no` carry the
response code and information that the source interpolates into the
error string; `ioErr` carries the message of the underlying I/O error. -/
inductive Error where
  | ioErr (msg : String)
  | ioStatus (status : Status) (code : Option String) (information : Option String)
  | bad (code : Option String) (information : Option String)
  | no (code : Option String) (information : Option String)
  | connectionLost
  | parseAuth (text : String)
  | validate (c : Char)
  | append
deriving DecidableEq

/-- Decidable equality for `Except`, needed to evaluate outcomes of the
fallible embedded operations on concrete inputs. -/
instance {ε α : Type} [DecidableEq ε] [DecidableEq α] : DecidableEq (Except ε α) :=
  fun x y =>
    match x, y with
    | .ok a, .ok b =>
      if h : a = b then .isTrue (by rw [h])
      else .isFalse (by intro hc; cases hc; exact h rfl)
    | .error a, .error b =>
      if h : a = b then .isTrue (by rw [h])
      else .isFalse (by intro hc; cases hc; exact h rfl)
    | .ok _, .error _ => .isFalse (by intro hc; cases hc)
    | .error _, .ok _ => .isFalse (by intro hc; cases hc)

/-- One item produced by the response stream: `stream.next()` yields
`io::Result<ResponseData>` in the source; list exhaustion models `None`
(end of stream). -/
abbrev StreamItem := Except String Response

/-! ## Unsolicited routing: `handle_unilateral` (src/parse.rs lines 334-361)

The channel (`sync::Sender<UnsolicitedResponse>`) is modelled as the list
of messages enqueued so far; `send` appends.  The function returns the
response unrouted (mirroring `Some(res)`) for every shape it does not
recognise — including `Done` responses. -/

/-- Embedding of `handle_unilateral`: route `Status`/`Recent`/`Exists`
mailbox data and `Expunge` to the unsolicited channel, return anything
else to the caller. -/
def handle_unilateral (res : Response) (chan : List UnsolicitedResponse) :
    List UnsolicitedResponse × Option Response :=
  match res with
  | .mailboxData (.statusD mb) => (chan ++ [.statusR mb], none)
  | .mailboxData (.recent n) => (chan ++ [.recent n], none)
  | .mailboxData (.existsN n) => (chan ++ [.existsR n], none)
  | .expunge n => (chan ++ [.expunge n], none)
  | _ => (chan, some res)

/-! ## Tagged-completion correlation: `Connection::check_ok`
(src/client.rs lines 1318-1370)

The response stream is a list of `StreamItem`s; `hasSink` models whether
the `Option<Sender<UnsolicitedResponse>>` argument is `Some`.  The result
pairs the command outcome with the final channel contents. -/

/-- Embedding of `Connection::check_ok`.  Note the tag comparison happens
only inside the `Status::Ok` arm, exactly as in the source. -/
def check_ok (id : String) (hasSink : Bool) :
    List StreamItem → List UnsolicitedResponse →
    Except Error Unit × List UnsolicitedResponse
  | [], chan => (.error .connectionLost, chan)
  | .error e :: _, chan => (.error (.ioErr e), chan)
  | .ok res :: rest, chan =>
    match res with
    | .done tag status code info =>
      match status with
      | .ok =>
        if tag ≠ id then
          let chan' :=
            if hasSink then (handle_unilateral (.done tag .ok code info) chan).1
            else chan
          check_ok id hasSink rest chan'
        else (.ok (), chan)
      | .bad => (.error (.bad code info), chan)
      | .no => (.error (.no code info), chan)
      | s => (.error (.ioStatus s code info), chan)
    | _ => check_ok id hasSink rest chan

/-- The behaviour of `check_ok` as the specification describes it
(claim C1): pull until a `Done` whose tag matches; any `Done` with a
different tag — regardless of status — is routed to the unsolicited sink
when one is provided (otherwise discarded) and pulling continues; a
matching `Done` then fails on `NO`/`BAD` and succeeds on `OK`.  The claim
does not fix the variant carrying the routed view, so the enqueued entry
is marked by reusing `statusR` with the tag.  Used only to compare
against the embedding of the source. -/
def check_ok_claim (id : String) (hasSink : Bool) :
    List StreamItem → List UnsolicitedResponse →
    Except Error Unit × List UnsolicitedResponse
  | [], chan => (.error .connectionLost, chan)
  | .error e :: _, chan => (.error (.ioErr e), chan)
  | .ok res :: rest, chan =>
    match res with
    | .done tag status code info =>
      if tag ≠ id then
        let chan' := if hasSink then chan ++ [.statusR tag] else chan
        check_ok_claim id hasSink rest chan'
      else
        match status with
        | .ok => (.ok (), chan)
        | .bad => (.error (.bad code info), chan)
        | .no => (.error (.no code info), chan)
        | s => (.error (.ioStatus s code info), chan)
    | _ => check_ok_claim id hasSink rest chan

/-! ## The IDLE wait loop: `Handle::wait` (src/extensions/idle.rs lines 117-154)

The interruptible stream yields `Result<io::Result<ResponseData>, _>`:
`interrupt` models the stop-token / timeout layer yielding `Err` (which
ends the `while let Some(Ok(..))` loop), `ioError` models
`Some(Ok(Err(e)))` (propagated by `resp?`), and `resp` a parsed view.
List exhaustion models the stream ending. -/

/-- One item of the interruptible IDLE stream. -/
inductive IdleItem where
  | interrupt
  | ioError (msg : String)
  | resp (r : Response)
deriving DecidableEq

/-- `IdleResponse` (src/extensions/idle.rs). -/
inductive IdleResponse where
  | manualInterrupt
  | timeout
  | newData (r : Response)
deriving DecidableEq

/-- Embedding of the future built by `Handle::wait`: consume untagged
`OK` status views and `Continue` views, hand `Done` views to
`handle_unilateral` (which routes only status/recent/exists/expunge data,
so a `Done` comes back unrouted and its return value is dropped), and
resolve to `NewData` on the first other view. -/
def waitIdle : List IdleItem → List UnsolicitedResponse →
    Except Error IdleResponse × List UnsolicitedResponse
  | [], chan => (.ok .manualInterrupt, chan)
  | .interrupt :: _, chan => (.ok .manualInterrupt, chan)
  | .ioError e :: _, chan => (.error (.ioErr e), chan)
  | .resp r :: rest, chan =>
    match r with
    | .data .ok _ _ => waitIdle rest chan
    | .continueReq _ => waitIdle rest chan
    | .done tag status code info =>
        waitIdle rest (handle_unilateral (.done tag status code info) chan).1
    | r' => (.ok (.newData r'), chan)

/-- The wait loop as claim C5 describes it: identical, except that a
`Done` view is enqueued on the unsolicited channel.  The claim does not
fix which variant carries it (the spec's data model has an
`Other(ResponseView)` variant for this); the enqueued entry is marked
here by reusing `statusR` with the tag, and only the fact that the
channel grows is compared against the source. -/
def waitIdle_claim : List IdleItem → List UnsolicitedResponse →
    Except Error IdleResponse × List UnsolicitedResponse
  | [], chan => (.ok .manualInterrupt, chan)
  | .interrupt :: _, chan => (.ok .manualInterrupt, chan)
  | .ioError e :: _, chan => (.error (.ioErr e), chan)
  | .resp r :: rest, chan =>
    match r with
    | .data .ok _ _ => waitIdle_claim rest chan
    | .continueReq _ => waitIdle_claim rest chan
    | .done tag _ _ _ => waitIdle_claim rest (chan ++ [.statusR tag])
    | r' => (.ok (.newData r'), chan)

/-! ## AUTHENTICATE: `Client::do_auth_handshake` (src/client.rs lines 307-349)

Base64 and the caller-supplied authenticator are external collaborators
(the `base64` crate and the `Authenticator` trait), passed as function
parameters.  `b64decode` returns `none` on invalid base64, mirroring
`base64::decode`'s error. -/

/-- Outcome of the AUTHENTICATE handshake.  `clientReturned` records
whether the original unauthenticated `Client` was handed back to the
caller (the `Err((e, self))` shape); `wrote` the untagged lines written;
`remaining` the response-stream items never read. -/
structure AuthOutcome where
  result : Except Error Unit
  clientReturned : Bool
  wrote : List String
  remaining : List StreamItem
deriving DecidableEq

/-- Embedding of `Client::do_auth_handshake`: read one response; on
`Continue` decode the challenge, send the base64-encoded authenticator
reply and immediately return the session (no further read); on any other
response read one further item and return the session if one exists;
stream end yields `ConnectionLost` with the client returned. -/
def do_auth_handshake (b64decode : String → Option (List Nat))
    (b64encode : List Nat → String) (process : List Nat → List Nat) :
    List StreamItem → AuthOutcome
  | [] => ⟨.error .connectionLost, true, [], []⟩
  | .error e :: rest => ⟨.error (.ioErr e), true, [], rest⟩
  | .ok res :: rest =>
    match res with
    | .continueReq info =>
      match info with
      | some text =>
        match b64decode text with
        | none => ⟨.error (.parseAuth text), true, [], rest⟩
        | some challenge =>
            ⟨.ok (), false, [b64encode (process challenge)], rest⟩
      | none => ⟨.ok (), false, [b64encode (process [])], rest⟩
    | _ =>
      match rest with
      | [] => ⟨.error .connectionLost, true, [], []⟩
      | _ :: rest2 => ⟨.ok (), false, [], rest2⟩

/-- The handshake as claim C2 describes it: answer each `Continue`
challenge, then await the tagged `OK`/`NO`/`BAD` completion of the
AUTHENTICATE command; `NO`/`BAD` fail and hand the original client back.
Used only to compare against the embedding of the source. -/
def do_auth_handshake_claim (b64decode : String → Option (List Nat))
    (b64encode : List Nat → String) (process : List Nat → List Nat)
    (id : String) : List StreamItem → List String → AuthOutcome
  | [], wrote => ⟨.error .connectionLost, true, wrote, []⟩
  | .error e :: rest, wrote => ⟨.error (.ioErr e), true, wrote, rest⟩
  | .ok res :: rest, wrote =>
    match res with
    | .continueReq info =>
      match info with
      | some text =>
        match b64decode text with
        | none => ⟨.error (.parseAuth text), true, wrote, rest⟩
        | some challenge =>
            do_auth_handshake_claim b64decode b64encode process id rest
              (wrote ++ [b64encode (process challenge)])
      | none =>
          do_auth_handshake_claim b64decode b64encode process id rest
            (wrote ++ [b64encode (process [])])
    | .done tag status code info =>
      if tag = id then
        match status with
        | .ok => ⟨.ok (), false, wrote, rest⟩
        | .no => ⟨.error (.no code info), true, wrote, rest⟩
        | .bad => ⟨.error (.bad code info), true, wrote, rest⟩
        | s => ⟨.error (.ioStatus s code info), true, wrote, rest⟩
      else do_auth_handshake_claim b64decode b64encode process id rest wrote
    | _ => do_auth_handshake_claim b64decode b64encode process id rest wrote

/-! ## `Session::append` (src/client.rs lines 1143-1171) -/

/-- Outcome of `Session::append` after the `APPEND .. \x7bN\x7d` command
line has been issued: the final result, whether the literal bytes (plus
CRLF) were written, and the response-stream items never read. -/
structure AppendOutcome where
  result : Except Error Unit
  literalWritten : Bool
  remaining : List StreamItem
deriving DecidableEq

/-- Embedding of the response handling of `Session::append`: one read for
the reply to the literal announcement; only a `Continue` leads to the
literal being written, after which exactly one further response is read
via `read_response().transpose()?` — its value is discarded, so only an
I/O error propagates. -/
def appendSession : List StreamItem → AppendOutcome
  | [] => ⟨.error .append, false, []⟩
  | .error e :: rest => ⟨.error (.ioErr e), false, rest⟩
  | .ok res :: rest =>
    match res with
    | .continueReq _ =>
      match rest with
      | [] => ⟨.ok (), true, []⟩
      | .error e :: rest2 => ⟨.error (.ioErr e), true, rest2⟩
      | .ok _ :: rest2 => ⟨.ok (), true, rest2⟩
    | _ => ⟨.error .append, false, rest⟩

/-- Recogniser for `Response::Continue`, used to state the append theorem. -/
def Response.isContinueReq : Response → Bool
  | .continueReq _ => true
  | _ => false

/-- Recogniser for the views the IDLE wait loop handles without
resolving: untagged `OK` status views, `Continue` views and `Done`
views. -/
def Response.idleHandled : Response → Bool
  | .data .ok _ _ => true
  | .continueReq _ => true
  | .done _ _ _ _ => true
  | _ => false

/-! ## String validation and command construction (src/client.rs)

Strings are handled as `List Char` so that the character-level effect of
the `quote!` macro and `validate_str` can be reasoned about directly.
`quote!` performs `value.replace('\\', "\\\\").replace('"', "\\\"")`
inside double quotes; since the first replacement introduces no `"`,
the sequential replacements equal the per-character expansion below. -/

/-- Per-character expansion of the two `replace` calls of `quote!`. -/
def escapeChars : List Char → List Char
  | [] => []
  | c :: rest =>
    (if c = '\\' then ['\\', '\\']
     else if c = '"' then ['\\', '"']
     else [c]) ++ escapeChars rest

/-- Embedding of the `quote!` macro: escape and wrap in double quotes. -/
def quoteStr (s : List Char) : List Char :=
  '"' :: (escapeChars s ++ ['"'])

/-- Embedding of `validate_str` (src/client.rs lines 1373-1382): quote,
then reject if the quoted string contains LF (checked first) or CR. -/
def validate_str (s : List Char) : Except Error (List Char) :=
  let quoted := quoteStr s
  if '\n' ∈ quoted then .error (.validate '\n')
  else if '\r' ∈ quoted then .error (.validate '\r')
  else .ok quoted

/-- Command line built by `Session::select`: `SELECT` plus the validated,
quoted mailbox name. -/
def selectCommand (mailbox : List Char) : Except Error (List Char) :=
  (validate_str mailbox).map (fun q => "SELECT ".data ++ q)

/-- Command line built by `Session::mv`: the mailbox name is validated. -/
def mvCommand (sequenceSet mailbox : List Char) : Except Error (List Char) :=
  (validate_str mailbox).map
    (fun q => "MOVE ".data ++ sequenceSet ++ [' '] ++ q)

/-- Command line built by `Session::copy` (src/client.rs lines 864-877):
both arguments are interpolated verbatim — no validation, no quoting. -/
def copyCommand (sequenceSet mailbox : List Char) : Except Error (List Char) :=
  .ok ("COPY ".data ++ sequenceSet ++ [' '] ++ mailbox)

/-! ## Request-id generation (src/types/id_generator.rs)

`IdGenerator` holds a `u64` counter starting at 0; `next` increments it
and formats `A{:04}` of `counter % 10_000`.  The counter is modelled as
`Nat` (it only ever increments by one per issued command, far below the
`u64` range).  Rust's `{:04}` formatting is embedded as the decimal
digit string left-padded with `'0'` to a minimum width of 4. -/

/-- Little-endian decimal digits, via repeated division by 10; the fuel
argument (always at least the number itself) keeps the recursion
structural so that concrete tags evaluate by `decide`. -/
def decDigitsAux : Nat → Nat → List Nat
  | 0, _ => []
  | _ + 1, 0 => []
  | fuel + 1, n + 1 => (n + 1) % 10 :: decDigitsAux fuel ((n + 1) / 10)

/-- Little-endian decimal digits of `n` (empty for 0). -/
def decDigits (n : Nat) : List Nat :=
  decDigitsAux n n

/-- Rust `format!("\x7b:04\x7d", m)`: decimal representation of `m`,
left-padded with zeros to a minimum width of 4. -/
def fmt04 (m : Nat) : String :=
  let ds := (decDigits m).reverse.map (fun d => Char.ofNat (48 + d))
  ⟨List.replicate (4 - ds.length) '0' ++ ds⟩

/-- Embedding of `IdGenerator::next`: increment the counter, format the
tag from the incremented value modulo 10000. -/
def IdGenerator.next (state : Nat) : Nat × String :=
  (state + 1, "A" ++ fmt04 ((state + 1) % 10000))

/-- Generator state after `n` calls to `next`, starting from 0. -/
def nthState : Nat → Nat
  | 0 => 0
  | n + 1 => (IdGenerator.next (nthState n)).1

/-- The `n`-th tag produced by the generator (`n ≥ 1`). -/
def nthTag (n : Nat) : String :=
  (IdGenerator.next (nthState (n - 1))).2

/-! ## Capabilities (src/types/capabilities.rs) -/

/-- ASCII lower-casing of a character, as `u8::to_ascii_lowercase`. -/
def asciiLower (c : Char) : Char :=
  if 'A' ≤ c ∧ c ≤ 'Z' then Char.ofNat (c.toNat + 32) else c

/-- `str::eq_ignore_ascii_case`: equality after ASCII lower-casing. -/
def eqIgnoreAsciiCase (a b : String) : Bool :=
  a.data.map asciiLower == b.data.map asciiLower

/-- The `Capability` enum (src/types/capabilities.rs). -/
inductive Capability where
  | imap4rev1
  | auth (s : String)
  | atom (s : String)
deriving DecidableEq

/-- The capability set; Rust's `HashSet<Capability>` is modelled as a
`Finset` (structural equality, no duplicates, `len` = cardinality). -/
abbrev Capabilities := Finset Capability

/-- `Capabilities::has`: structural membership. -/
def Capabilities.has (caps : Capabilities) (c : Capability) : Bool :=
  c ∈ caps

/-- Embedding of `Capabilities::has_str`: the `IMAP4rev1` name and the
`AUTH=` prefix are compared case-insensitively, after which the lookup
is by structural equality on the remaining text. -/
def Capabilities.has_str (caps : Capabilities) (s : String) : Bool :=
  if eqIgnoreAsciiCase s "IMAP4rev1" then caps.has .imap4rev1
  else if s.length > "AUTH=".length ∧
      eqIgnoreAsciiCase (s.take "AUTH=".length) "AUTH=" then
    caps.has (.auth (s.drop "AUTH=".length))
  else caps.has (.atom s)

/-- Modelled from the spec: the capability-token classifier of the
external `imap_proto` parser (not under src/), per the spec's data model
and scenario S1 and the repository's own
`parse_capability_case_insensitive_test`: the `IMAP4rev1` token matches
case-insensitively, an `AUTH=`-prefixed token yields `Auth`, anything
else an `Atom` carrying the original text. -/
def capOfToken (t : String) : Capability :=
  if eqIgnoreAsciiCase t "IMAP4rev1" then .imap4rev1
  else if t.length > "AUTH=".length ∧
      eqIgnoreAsciiCase (t.take "AUTH=".length) "AUTH=" then
    .auth (t.drop "AUTH=".length)
  else .atom t

/-- Modelled from the spec: the capability set collected by
`parse_capabilities` from the tokens of a `* CAPABILITY` line. -/
def capsOfTokens (tokens : List String) : Capabilities :=
  tokens.foldl (fun acc t => insert (capOfToken t) acc) ∅

/-! ## The read buffer (src/imap_stream.rs lines 133-258)

Only the two size fields matter for the buffer invariants: `size` is
`block.size()` (the capacity) and `offset` the used prefix length. -/

def BLOCK_SIZE : Nat := 1024 * 4

def MAX_CAPACITY : Nat := 512 * 1024 * 1024

/-- The `Buffer` of `ImapStream`, reduced to its size fields. -/
structure Buffer where
  size : Nat
  offset : Nat
deriving DecidableEq

/-- `Buffer::new`: one pool block, nothing used. -/
def Buffer.new : Buffer := ⟨BLOCK_SIZE, 0⟩

/-- `Buffer::used`. -/
def Buffer.used (b : Buffer) : Nat := b.offset

/-- Length of the free tail `[used, capacity)` —
`free_as_mut_slice().len()`. -/
def Buffer.freeLen (b : Buffer) : Nat := b.size - b.offset

/-- `Buffer::extend_used`: advance `offset`, clamped to the block size. -/
def Buffer.extend_used (b : Buffer) (numBytes : Nat) : Buffer :=
  { b with offset := min (b.offset + numBytes) b.size }

/-- `Buffer::grow`: enlarge by at least `numBytes`, rounded up to a
multiple of `BLOCK_SIZE`; fail if the result would exceed
`MAX_CAPACITY`. -/
def Buffer.grow (b : Buffer) (numBytes : Nat) : Except String Buffer :=
  let min_size := b.size + numBytes
  let new_size :=
    if min_size % BLOCK_SIZE = 0 then min_size
    else min_size + (BLOCK_SIZE - min_size % BLOCK_SIZE)
  if new_size > MAX_CAPACITY then .error "incoming data too large"
  else .ok { b with size := new_size }

/-- `Buffer::ensure_capacity`: grow when the free tail is empty or the
requested total size exceeds the current block size
(`extra_bytes_needed = required.saturating_sub(block.size())`). -/
def Buffer.ensure_capacity (b : Buffer) (required : Nat) : Except String Buffer :=
  let free_bytes := b.size - b.offset
  let extra_bytes_needed := required - b.size
  if free_bytes = 0 ∨ extra_bytes_needed > 0 then
    b.grow (max BLOCK_SIZE extra_bytes_needed)
  else .ok b

/-- `Buffer::reset_with_data`, by the length of the data copied in: a
fresh block of the data length rounded up to a multiple of `BLOCK_SIZE`
(one extra block when the length is already a multiple, so the tail is
never empty), fully used up to the data length. -/
def Buffer.reset_with_data (len : Nat) : Buffer :=
  let new_size :=
    if len % BLOCK_SIZE = 0 then len + BLOCK_SIZE
    else len + (BLOCK_SIZE - len % BLOCK_SIZE)
  ⟨new_size, len⟩

/-- Buffer states reachable through the buffer's operations as the
stream uses them.  `reset_with_data` is only ever called from `decode`
with the bytes the parser left unconsumed, a strict suffix of the used
prefix (a successful parse of the IMAP grammar consumes at least the
terminating CRLF), hence the `len < b.used` side condition. -/
inductive Buffer.Reachable : Buffer → Prop
  | new : Buffer.Reachable Buffer.new
  | extend {b : Buffer} (numBytes : Nat) (h : Buffer.Reachable b) :
      Buffer.Reachable (b.extend_used numBytes)
  | ensure {b b' : Buffer} (required : Nat) (h : Buffer.Reachable b)
      (hok : b.ensure_capacity required = .ok b') : Buffer.Reachable b'
  | grow {b b' : Buffer} (numBytes : Nat) (h : Buffer.Reachable b)
      (hok : b.grow numBytes = .ok b') : Buffer.Reachable b'
  | reset {b : Buffer} (len : Nat) (h : Buffer.Reachable b)
      (hlen : len < b.used) : Buffer.Reachable (Buffer.reset_with_data len)

/-! ## The framed stream (src/imap_stream.rs lines 77-313)

The external `imap_proto::parser::parse_response` is a parameter: given
the used prefix it either succeeds (reporting how many bytes it
consumed; the remaining suffix is returned to the buffer), reports
incomplete input with a known minimum (`Needed::Size`) or unknown
(`Needed::Unknown`), or fails.  The underlying byte stream is a list of
chunks that successive reads deliver, with the empty list meaning the
stream has reached end-of-file (every further read returns 0 bytes). -/

/-- Result of the external response parser. -/
inductive ParseOut where
  | okOut (consumed : Nat) (resp : Response)
  | incomplete (minNeeded : Option Nat)
  | failed
deriving DecidableEq

/-- State of `ImapStream`: buffer contents (the used prefix), block
capacity, the `decode_needs` hint, and the unread input chunks. -/
structure StreamState where
  data : List Nat
  capacity : Nat
  decodeNeeds : Nat
  input : List (List Nat)
deriving DecidableEq

/-- The block size chosen by `reset_with_data` for a data length. -/
def resetSize (len : Nat) : Nat :=
  if len % BLOCK_SIZE = 0 then len + BLOCK_SIZE
  else len + (BLOCK_SIZE - len % BLOCK_SIZE)

/-- Embedding of `ImapStream::decode`: suppressed without invoking the
parser while the buffer holds fewer than `decode_needs` bytes; otherwise
the parser runs on the used prefix and its verdict updates
`decode_needs` and, on success, resets the buffer to the unconsumed
suffix.  The final component records whether the parser was invoked. -/
def decodeStep (prs : List Nat → ParseOut) (s : StreamState) :
    Except String (Option Response) × StreamState × Bool :=
  if s.data.length < s.decodeNeeds then (.ok none, s, false)
  else
    match prs s.data with
    | .okOut consumed resp =>
      let remaining := s.data.drop consumed
      (.ok (some resp),
        { s with data := remaining, capacity := resetSize remaining.length,
                 decodeNeeds := 0 }, true)
    | .incomplete (some minNeeded) =>
      (.ok none, { s with decodeNeeds := s.data.length + minNeeded }, true)
    | .incomplete none => (.ok none, { s with decodeNeeds := 0 }, true)
    | .failed => (.error "parse error", { s with decodeNeeds := 0 }, true)

/-- `Buffer::ensure_capacity` acting on the stream state. -/
def ensureCapacityS (s : StreamState) (required : Nat) :
    Except String StreamState :=
  let free_bytes := s.capacity - s.data.length
  let extra_bytes_needed := required - s.capacity
  if free_bytes = 0 ∨ extra_bytes_needed > 0 then
    let min_size := s.capacity + max BLOCK_SIZE extra_bytes_needed
    let new_size :=
      if min_size % BLOCK_SIZE = 0 then min_size
      else min_size + (BLOCK_SIZE - min_size % BLOCK_SIZE)
    if new_size > MAX_CAPACITY then .error "incoming data too large"
    else .ok { s with capacity := new_size }
  else .ok s

/-- Result of one `poll_next` of the framed stream. -/
inductive PollResult where
  | item (r : Response)
  | ioFailure (msg : String)
  | eofWithBytes
  | streamEnd
deriving DecidableEq

/-- Total number of unread input bytes (the loop's termination measure:
every iteration that continues has consumed at least one byte). -/
def totalBytes (input : List (List Nat)) : Nat :=
  (input.map List.length).sum

/-- The state after reading one chunk into the buffer: the read delivers
at most the free-tail length (`poll_read` fills the slice handed to it);
any surplus stays at the head of the input. -/
def readChunk (s1 : StreamState) (chunk : List Nat)
    (restInput : List (List Nat)) : StreamState :=
  let free := s1.capacity - s1.data.length
  { s1 with data := s1.data ++ chunk.take free,
            input := if (chunk.drop free).isEmpty then restInput
                     else chunk.drop free :: restInput }

/-- The read/decode loop of `ImapStream::poll_next`: ensure free buffer
space, read the next chunk (a zero-byte read yields the EOF
discrimination of the source), extend the buffer, attempt a decode, and
repeat while the decode produces nothing.  The fuel argument keeps the
recursion structural; `pollNext` supplies more fuel than the loop can
consume. -/
def pollLoop (prs : List Nat → ParseOut) :
    Nat → StreamState → PollResult × StreamState
  | 0, s => (.ioFailure "out of fuel", s)
  | fuel + 1, s =>
    match ensureCapacityS s s.decodeNeeds with
    | .error e => (.ioFailure e, s)
    | .ok s1 =>
      match s1.input with
      | [] =>
        if 0 < s1.data.length then (.eofWithBytes, s1) else (.streamEnd, s1)
      | chunk :: restInput =>
        let s2 := readChunk s1 chunk restInput
        if (chunk.take (s1.capacity - s1.data.length)).length = 0 then
          if 0 < s2.data.length then (.eofWithBytes, s2) else (.streamEnd, s2)
        else
          match decodeStep prs s2 with
          | (.error e, s3, _) => (.ioFailure e, s3)
          | (.ok (some r), s3, _) => (.item r, s3)
          | (.ok none, s3, _) => pollLoop prs fuel s3

/-- Embedding of `ImapStream::poll_next`: a first decode attempt on the
buffered bytes, then the read/decode loop. -/
def pollNext (prs : List Nat → ParseOut) (s : StreamState) :
    PollResult × StreamState :=
  match decodeStep prs s with
  | (.error e, s', _) => (.ioFailure e, s')
  | (.ok (some r), s', _) => (.item r, s')
  | (.ok none, s', _) => pollLoop prs (totalBytes s'.input + 1) s'


/-! ## Theorems -/


/-! ## Supporting lemmas -/

/-- The decimal digit list of `n < 10 ^ k` has at most `k` digits. -/
theorem decDigitsAux_length_le :
    ∀ fuel n k : Nat, n ≤ fuel → n < 10 ^ k → (decDigitsAux fuel n).length ≤ k := by
  intro fuel
  induction fuel with
  | zero =>
    intro n k hn _
    have : n = 0 := Nat.le_zero.mp hn
    subst this
    simp [decDigitsAux]
  | succ fuel ih =>
    intro n k hn hk
    match n with
    | 0 => simp [decDigitsAux]
    | m + 1 =>
      have hk0 : k ≠ 0 := by
        rintro rfl
        simp at hk
      obtain ⟨k', rfl⟩ := Nat.exists_eq_succ_of_ne_zero hk0
      have hdivle : (m + 1) / 10 ≤ fuel := by
        have := Nat.div_lt_self (Nat.succ_pos m) (by norm_num : 1 < 10)
        omega
      have hdivlt : (m + 1) / 10 < 10 ^ k' := by
        have hlt : m + 1 < 10 * 10 ^ k' := by
          rw [← pow_succ']
          exact hk
        exact Nat.div_lt_of_lt_mul hlt
      have := ih ((m + 1) / 10) k' hdivle hdivlt
      simp only [decDigitsAux, List.length_cons]
      omega

/-- For values below 10000 the `\x7b:04\x7d` format is exactly 4 characters. -/
theorem fmt04_length (m : Nat) (hm : m < 10000) : (fmt04 m).length = 4 := by
  have h := decDigitsAux_length_le m m 4 (le_refl m) (by norm_num; omega)
  unfold fmt04 decDigits
  simp only [String.length, List.length_append, List.length_replicate,
    List.length_map, List.length_reverse]
  unfold decDigits at h
  omega

/-- The generator counter after `n` calls is `n`. -/
theorem nthState_eq (n : Nat) : nthState n = n := by
  induction n with
  | zero => rfl
  | succ n ih => simp [nthState, IdGenerator.next, ih]

/-- C8: for every n ≥ 1, the n-th tag produced by the id generator is
the letter A followed by n mod 10000 rendered as exactly four
zero-padded decimal digits. -/
theorem C8_nth_tag (n : Nat) (h : 1 ≤ n) :
    nthTag n = "A" ++ fmt04 (n % 10000) ∧ (fmt04 (n % 10000)).length = 4 := by
  constructor
  · unfold nthTag IdGenerator.next
    rw [nthState_eq]
    have hn : n - 1 + 1 = n := by omega
    rw [hn]
  · exact fmt04_length _ (Nat.mod_lt _ (by norm_num))

/-- Witness for C8 at n = 10000: the hypothesis holds and the formula
instantiates; concretely the 10000-th tag wraps to A0000. -/
theorem C8_nth_tag_witness :
    1 ≤ 10000 ∧ nthTag 10000 = "A" ++ fmt04 (10000 % 10000) ∧
      "A" ++ fmt04 (10000 % 10000) = "A0000" :=
  ⟨by norm_num, (C8_nth_tag 10000 (by norm_num)).1, by decide⟩

/-- Membership of a character other than backslash and double quote is
preserved by the quote escaping. -/
theorem mem_escapeChars {c : Char} (h1 : c ≠ '\\') (h2 : c ≠ '"') :
    ∀ s : List Char, c ∈ escapeChars s ↔ c ∈ s := by
  intro s
  induction s with
  | nil => simp [escapeChars]
  | cons a rest ih =>
    by_cases ha : a = '\\'
    · subst ha
      simp [escapeChars, ih, h1]
    · by_cases hb : a = '"'
      · subst hb
        simp [escapeChars, ih, h1, h2]
      · simp [escapeChars, ha, hb, ih]

/-- Membership of a character other than backslash and double quote is
preserved by quoting. -/
theorem mem_quoteStr {c : Char} (h1 : c ≠ '\\') (h2 : c ≠ '"') (s : List Char) :
    c ∈ quoteStr s ↔ c ∈ s := by
  simp [quoteStr, mem_escapeChars h1 h2, h2]

/-- C4: validate_str rejects strings containing LF or CR with a Validate
error (LF checked first), so commands built through it — select and mv
among them — fail locally; but copy interpolates its mailbox name
verbatim without validation or quoting, so the command line it emits
carries any CR or LF of the argument. -/
theorem C4_validation (s seqSet : List Char) :
    ('\n' ∈ s → validate_str s = .error (.validate '\n')) ∧
    ('\n' ∉ s → '\r' ∈ s → validate_str s = .error (.validate '\r')) ∧
    ('\n' ∈ s ∨ '\r' ∈ s →
      ∃ c, selectCommand s = .error (.validate c) ∧
        mvCommand seqSet s = .error (.validate c)) ∧
    copyCommand seqSet s = .ok ("COPY ".data ++ seqSet ++ [' '] ++ s) := by
  have hn : ('\n' ∈ quoteStr s ↔ '\n' ∈ s) := mem_quoteStr (by decide) (by decide) s
  have hr : ('\r' ∈ quoteStr s ↔ '\r' ∈ s) := mem_quoteStr (by decide) (by decide) s
  have hval1 : '\n' ∈ s → validate_str s = .error (.validate '\n') := by
    intro h
    simp [validate_str, hn.mpr h]
  have hval2 : '\n' ∉ s → '\r' ∈ s → validate_str s = .error (.validate '\r') := by
    intro h1 h2
    simp [validate_str, hn, h1, hr.mpr h2]
  refine ⟨hval1, hval2, ?_, rfl⟩
  intro h
  by_cases h1 : '\n' ∈ s
  · exact ⟨'\n', by simp [selectCommand, hval1 h1, Except.map],
      by simp [mvCommand, hval1 h1, Except.map]⟩
  · have h2 : '\r' ∈ s := by tauto
    exact ⟨'\r', by simp [selectCommand, hval2 h1 h2, Except.map],
      by simp [mvCommand, hval2 h1 h2, Except.map]⟩

/-- Witness for C4: a mailbox name containing CRLF is rejected by
validate_str and by select, while copy embeds it verbatim. -/
theorem C4_validation_witness :
    '\n' ∈ "IN\r\nBOX".data ∧
    validate_str "IN\r\nBOX".data = .error (.validate '\n') ∧
    copyCommand "1".data "IN\r\nBOX".data =
      .ok ("COPY ".data ++ "1".data ++ [' '] ++ "IN\r\nBOX".data) :=
  ⟨by decide, (C4_validation "IN\r\nBOX".data "1".data).1 (by decide),
    (C4_validation "IN\r\nBOX".data "1".data).2.2.2⟩

/-- Counterexample to C4: the same CR/LF-carrying mailbox name that
validate_str rejects flows through copy into an Ok command line whose
bytes contain the CR — no local Validate failure occurs, contradicting
the claim that every command rejects CR/LF before writing. -/
theorem C4_copy_counterexample :
    copyCommand "1".data "INBOX\r\nX".data = .ok ("COPY 1 INBOX\r\nX".data) ∧
    '\r' ∈ "COPY 1 INBOX\r\nX".data ∧
    validate_str "INBOX\r\nX".data = .error (.validate '\n') := by
  refine ⟨rfl, by decide, by decide⟩

/-- Fields and bounds of a successful grow: the offset is untouched, the
size grows by at least the request, and the ceiling is respected. -/
theorem grow_ok {b b' : Buffer} {n : Nat} (h : b.grow n = .ok b') :
    b'.offset = b.offset ∧ b.size + n ≤ b'.size ∧ b'.size ≤ MAX_CAPACITY := by
  simp only [Buffer.grow, BLOCK_SIZE, MAX_CAPACITY] at h ⊢
  split at h
  · split at h
    · exact absurd h (by simp)
    · cases h
      refine ⟨rfl, ?_, ?_⟩ <;> (dsimp only; omega)
  · split at h
    · exact absurd h (by simp)
    · cases h
      refine ⟨rfl, ?_, ?_⟩ <;> (dsimp only; omega)

/-- Fields and bounds of a successful ensure_capacity: offset untouched,
free tail non-empty, requested total size reached, size monotone. -/
theorem ensure_ok {b b' : Buffer} {k : Nat} (hinv : b.offset ≤ b.size)
    (h : b.ensure_capacity k = .ok b') :
    b'.offset = b.offset ∧ b.size ≤ b'.size ∧ b'.offset < b'.size ∧
      k ≤ b'.size := by
  simp only [Buffer.ensure_capacity] at h
  split at h
  · rename_i hcond
    obtain ⟨ho, hs, hmax⟩ := grow_ok h
    have hblock : (0:Nat) < BLOCK_SIZE := by norm_num [BLOCK_SIZE]
    have h1 : BLOCK_SIZE ≤ max BLOCK_SIZE (k - b.size) := le_max_left _ _
    have h2 : k - b.size ≤ max BLOCK_SIZE (k - b.size) := le_max_right _ _
    refine ⟨ho, by omega, by omega, by omega⟩
  · rename_i hcond
    cases h
    push_neg at hcond
    refine ⟨rfl, le_refl _, by omega, by omega⟩

/-- The ceiling survives ensure_capacity. -/
theorem ensure_ok_max {b b' : Buffer} {k : Nat} (hmax : b.size ≤ MAX_CAPACITY)
    (h : b.ensure_capacity k = .ok b') : b'.size ≤ MAX_CAPACITY := by
  simp only [Buffer.ensure_capacity] at h
  split at h
  · exact (grow_ok h).2.2
  · cases h
    exact hmax

/-- Every buffer state reachable through the buffer's operations keeps
its used prefix within its size and its size within the 512 MiB
ceiling. -/
theorem buffer_invariant {b : Buffer} (h : Buffer.Reachable b) :
    b.offset ≤ b.size ∧ b.size ≤ MAX_CAPACITY := by
  induction h with
  | new =>
    exact ⟨by norm_num [Buffer.new],
      by norm_num [Buffer.new, BLOCK_SIZE, MAX_CAPACITY]⟩
  | extend n h ih =>
    unfold Buffer.extend_used
    exact ⟨min_le_right _ _, ih.2⟩
  | ensure k h hok ih =>
    obtain ⟨_, _, hlt, _⟩ := ensure_ok ih.1 hok
    exact ⟨le_of_lt hlt, ensure_ok_max ih.2 hok⟩
  | grow n h hok ih =>
    obtain ⟨ho, hs, hmax⟩ := grow_ok hok
    exact ⟨by omega, hmax⟩
  | reset len h hlen ih =>
    unfold Buffer.used at hlen
    have h1 := ih.1
    have h2 := ih.2
    unfold Buffer.reset_with_data
    simp only [BLOCK_SIZE, MAX_CAPACITY] at *
    constructor
    · split_ifs <;> omega
    · split_ifs <;> omega

/-- C3 (amended): every reachable buffer state satisfies
used ≤ capacity ≤ 512 MiB, and a successful ensure_capacity(k) leaves at
least one free byte in the tail, a capacity of at least k, the used
prefix untouched, and a reachable state — but not necessarily max(1, k)
free bytes. -/
theorem C3_buffer (b b' : Buffer) (k : Nat) (h : Buffer.Reachable b) :
    (b.used ≤ b.size ∧ b.size ≤ MAX_CAPACITY) ∧
    (b.ensure_capacity k = .ok b' →
      1 ≤ b'.freeLen ∧ k ≤ b'.size ∧ b'.used = b.used ∧ Buffer.Reachable b') := by
  have hinv := buffer_invariant h
  refine ⟨hinv, fun hok => ?_⟩
  obtain ⟨ho, hs, hlt, hk⟩ := ensure_ok hinv.1 hok
  exact ⟨by unfold Buffer.freeLen; omega, hk, ho,
    Buffer.Reachable.ensure k h hok⟩

/-- Witness for C3: the fresh buffer is reachable and ensure_capacity 0
keeps its full block free. -/
theorem C3_buffer_witness :
    Buffer.Reachable Buffer.new ∧
    Buffer.ensure_capacity Buffer.new 0 = .ok Buffer.new ∧
    1 ≤ Buffer.freeLen Buffer.new :=
  ⟨Buffer.Reachable.new, by decide,
    ((C3_buffer Buffer.new Buffer.new 0 Buffer.Reachable.new).2 (by decide)).1⟩

/-- Counterexample to C3 as stated: the reachable state with 4096-byte
capacity and 4000 used bytes answers ensure_capacity 200 with Ok and an
unchanged state whose free tail holds only 96 < max(1, 200) bytes. -/
theorem C3_buffer_counterexample :
    Buffer.Reachable ⟨4096, 4000⟩ ∧
    Buffer.ensure_capacity ⟨4096, 4000⟩ 200 = .ok ⟨4096, 4000⟩ ∧
    Buffer.freeLen ⟨4096, 4000⟩ < max 1 200 := by
  refine ⟨?_, by decide, by decide⟩
  have h : Buffer.new.extend_used 4000 = (⟨4096, 4000⟩ : Buffer) := by decide
  exact h ▸ Buffer.Reachable.extend 4000 Buffer.Reachable.new

/-- A decode that produces no response touches only decode_needs. -/
theorem decodeStep_ok_none {prs : List Nat → ParseOut} {s s' : StreamState}
    {flag : Bool} (h : decodeStep prs s = (.ok none, s', flag)) :
    s'.data = s.data ∧ s'.input = s.input ∧ s'.capacity = s.capacity := by
  unfold decodeStep at h
  split at h
  · cases h
    exact ⟨rfl, rfl, rfl⟩
  · split at h
    all_goals first
      | (cases h; exact ⟨rfl, rfl, rfl⟩)
      | simp at h

/-- A successful ensure_capacity on the stream state touches only the
capacity, reaches the requested total size, does not shrink, and leaves
a positive capacity. -/
theorem ensureS_ok {s s1 : StreamState} {k : Nat}
    (h : ensureCapacityS s k = .ok s1) :
    s1.data = s.data ∧ s1.input = s.input ∧ s1.decodeNeeds = s.decodeNeeds ∧
      k ≤ s1.capacity ∧ s.capacity ≤ s1.capacity ∧ 0 < s1.capacity := by
  have hb : (0:Nat) < BLOCK_SIZE := by norm_num [BLOCK_SIZE]
  have h1 : BLOCK_SIZE ≤ max BLOCK_SIZE (k - s.capacity) := le_max_left _ _
  have h2 : k - s.capacity ≤ max BLOCK_SIZE (k - s.capacity) := le_max_right _ _
  simp only [ensureCapacityS] at h
  split at h
  · split at h
    · split at h
      · exact absurd h (by simp)
      · cases h
        refine ⟨rfl, rfl, rfl, ?_, ?_, ?_⟩ <;> (dsimp only; omega)
    · split at h
      · exact absurd h (by simp)
      · cases h
        refine ⟨rfl, rfl, rfl, ?_, ?_, ?_⟩ <;> (dsimp only; omega)
  · rename_i hcond
    cases h
    push_neg at hcond
    refine ⟨rfl, rfl, rfl, by omega, le_refl _, by omega⟩

/-- A loop run that ends in end-of-stream started and finished with an
empty buffer: the buffer never shrinks while no response is produced,
and end-of-stream requires it empty. -/
theorem pollLoop_streamEnd_data {prs : List Nat → ParseOut} :
    ∀ fuel (s s₁ : StreamState), pollLoop prs fuel s = (.streamEnd, s₁) →
      s₁.data.length = 0 ∧ s.data.length = 0 := by
  intro fuel
  induction fuel with
  | zero =>
    intro s s₁ h
    simp [pollLoop] at h
  | succ fuel ih =>
    intro s s₁ h
    simp only [pollLoop] at h
    split at h
    · simp at h
    · rename_i s1 hens
      obtain ⟨hd1, hi1, hn1, _, _, hpos1⟩ := ensureS_ok hens
      have hdlen : s1.data.length = s.data.length := by rw [hd1]
      split at h
      · rename_i hinp
        split at h
        · simp at h
        · rename_i hlen
          cases h
          constructor <;> omega
      · rename_i chunk restInput hinp
        split at h
        · rename_i hrb
          split at h
          · simp at h
          · rename_i hlen2
            cases h
            simp only [readChunk, List.length_append] at hlen2 ⊢
            constructor <;> omega
        · rename_i hrb
          split at h
          · simp at h
          · simp at h
          · rename_i r3 s3 flag3 hdec
            have h3 := ih s3 s₁ h
            obtain ⟨hd3, _, _⟩ := decodeStep_ok_none hdec
            rw [hd3] at h3
            simp only [readChunk, List.length_append] at h3
            omega

/-- Inversion of an end-of-stream loop result: when no read ever
delivers zero bytes spuriously (chunks are non-empty), end-of-stream is
produced only with an exhausted input, an empty buffer, and a capacity
that the pre-read ensure_capacity has brought up to at least
decode_needs. -/
theorem pollLoop_streamEnd_inv {prs : List Nat → ParseOut} {fuel : Nat}
    {s s₁ : StreamState} (hne : ∀ c ∈ s.input, c ≠ [])
    (h : pollLoop prs fuel s = (.streamEnd, s₁)) :
    s₁.input = [] ∧ s₁.data = [] ∧ s₁.decodeNeeds = s.decodeNeeds ∧
      s₁.decodeNeeds ≤ s₁.capacity ∧ 0 < s₁.capacity ∧ s.data = [] := by
  match fuel with
  | 0 => simp [pollLoop] at h
  | fuel + 1 =>
    simp only [pollLoop] at h
    split at h
    · simp at h
    · rename_i s1 hens
      obtain ⟨hd1, hi1, hn1, hk1, _, hpos1⟩ := ensureS_ok hens
      split at h
      · rename_i hinp
        split at h
        · simp at h
        · rename_i hlen
          cases h
          have hnil : s₁.data = [] := List.eq_nil_of_length_eq_zero (by omega)
          refine ⟨hinp, hnil, hn1, ?_, hpos1, by rw [← hd1]; exact hnil⟩
          rw [hn1]
          exact hk1
      · rename_i chunk restInput hinp
        have hchunk : chunk ≠ [] := by
          apply hne
          rw [← hi1, hinp]
          exact List.mem_cons_self _ _
        have hclen : 0 < chunk.length := List.length_pos.mpr hchunk
        split at h
        · rename_i hrb
          split at h
          · simp at h
          · rename_i hlen2
            exfalso
            simp only [readChunk, List.length_append] at hlen2
            simp only [List.length_take] at hrb
            omega
        · rename_i hrb
          split at h
          · simp at h
          · simp at h
          · rename_i r3 s3 flag3 hdec
            exfalso
            have h3 := pollLoop_streamEnd_data fuel s3 s₁ h
            obtain ⟨hd3, _, _⟩ := decodeStep_ok_none hdec
            rw [hd3] at h3
            simp only [readChunk, List.length_append] at h3
            omega

/-- Inversion of an end-of-stream poll: the resulting state has an
exhausted input, an empty buffer, a capacity at least decode_needs and
positive; and when decode_needs ended at 0, the parser was seen to
answer the empty input with an Incomplete verdict of minimum 0 or of
unknown size. -/
theorem pollNext_streamEnd_inv {prs : List Nat → ParseOut} {s s₁ : StreamState}
    (hne : ∀ c ∈ s.input, c ≠ [])
    (h : pollNext prs s = (.streamEnd, s₁)) :
    s₁.input = [] ∧ s₁.data = [] ∧ s₁.decodeNeeds ≤ s₁.capacity ∧
      0 < s₁.capacity ∧
      (s₁.decodeNeeds = 0 →
        prs [] = .incomplete (some 0) ∨ prs [] = .incomplete none) := by
  unfold pollNext at h
  split at h
  · simp at h
  · simp at h
  · rename_i s' flag hdec
    obtain ⟨hd', hi', hc'⟩ := decodeStep_ok_none hdec
    have hne' : ∀ c ∈ s'.input, c ≠ [] := by
      rw [hi']
      exact hne
    obtain ⟨hi1, hd1, hn1, hk1, hpos1, hsd⟩ := pollLoop_streamEnd_inv hne' h
    refine ⟨hi1, hd1, hk1, hpos1, ?_⟩
    intro h0
    have hsdata : s.data = [] := by rw [← hd']; exact hsd
    rw [h0] at hn1
    unfold decodeStep at hdec
    split at hdec
    · rename_i hsup
      cases hdec
      omega
    · rename_i hsup
      split at hdec
      · simp at hdec
      · rename_i m hprs
        cases hdec
        rw [hsdata] at hprs
        have hm : m = 0 := by
          simp [hsdata] at hn1
          omega
        left
        rw [hprs, hm]
      · rename_i hprs
        right
        rw [← hprs, hsdata]
      · simp at hdec

/-- A poll of the end state — exhausted input, empty buffer, settled
ensure_capacity and a decode that produces nothing — returns
end-of-stream and the same state. -/
theorem pollNext_end_state {prs : List Nat → ParseOut} {s₁ : StreamState}
    {flag : Bool} (hi1 : s₁.input = []) (hd1 : s₁.data = [])
    (hens : ensureCapacityS s₁ s₁.decodeNeeds = .ok s₁)
    (hdec : decodeStep prs s₁ = (.ok none, s₁, flag)) :
    pollNext prs s₁ = (.streamEnd, s₁) := by
  unfold pollNext
  rw [hdec]
  dsimp only
  rw [hi1]
  show pollLoop prs 1 s₁ = (.streamEnd, s₁)
  simp only [pollLoop]
  rw [hens]
  dsimp only
  rw [hi1]
  dsimp only
  rw [hd1]
  simp

/-- C6: when a poll reaches the read with the input exhausted — the
zero-byte read — the stream yields an unexpected-EOF error if the buffer
still holds bytes and end-of-stream if it is empty; and, over an
underlying stream that only reports zero bytes at true end-of-file,
every poll after an end-of-stream result returns end-of-stream again
with the state unchanged. -/
theorem C6_eof_discrimination (prs : List Nat → ParseOut)
    (s s' s1 s₁ : StreamState) (flag : Bool) :
    (s.input = [] → decodeStep prs s = (.ok none, s', flag) →
      ensureCapacityS s' s'.decodeNeeds = .ok s1 →
      pollNext prs s =
        if 0 < s1.data.length then (.eofWithBytes, s1) else (.streamEnd, s1)) ∧
    ((∀ c ∈ s.input, c ≠ []) → pollNext prs s = (.streamEnd, s₁) →
      pollNext prs s₁ = (.streamEnd, s₁)) := by
  constructor
  · intro hinp hdec hens
    obtain ⟨hd', hi', hc'⟩ := decodeStep_ok_none hdec
    obtain ⟨hd1, hi1, _, _, _, _⟩ := ensureS_ok hens
    unfold pollNext
    rw [hdec]
    dsimp only
    rw [hi', hinp]
    show pollLoop prs 1 s' = _
    simp only [pollLoop]
    rw [hens]
    dsimp only
    rw [hi1, hi', hinp]
  · intro hne h
    obtain ⟨hi1, hd1, hk1, hpos1, hprs0⟩ := pollNext_streamEnd_inv hne h
    have hens : ensureCapacityS s₁ s₁.decodeNeeds = .ok s₁ := by
      simp only [ensureCapacityS]
      split
      · rename_i hcond
        exfalso
        rw [hd1] at hcond
        simp at hcond
        omega
      · rfl
    rcases Nat.eq_zero_or_pos s₁.decodeNeeds with h0 | hposn
    · have hc : ¬s₁.data.length < s₁.decodeNeeds := by omega
      have heta : { s₁ with decodeNeeds := 0 } = s₁ := by rw [← h0]
      rcases hprs0 h0 with hp | hp
      · have hdec : decodeStep prs s₁ = (.ok none, s₁, true) := by
          unfold decodeStep
          rw [if_neg hc, hd1, hp]
          simp only [List.length_nil, Nat.zero_add, Nat.add_zero]
          rw [← hd1]
          exact congrArg (fun t => (Except.ok none, t, true)) heta
        exact pollNext_end_state hi1 hd1 hens hdec
      · have hdec : decodeStep prs s₁ = (.ok none, s₁, true) := by
          unfold decodeStep
          rw [if_neg hc, hd1, hp]
          rw [← hd1]
          exact congrArg (fun t => (Except.ok none, t, true)) heta
        exact pollNext_end_state hi1 hd1 hens hdec
    · have hc : s₁.data.length < s₁.decodeNeeds := by
        rw [hd1]
        simpa using hposn
      have hdec : decodeStep prs s₁ = (.ok none, s₁, false) := by
        unfold decodeStep
        rw [if_pos hc]
      exact pollNext_end_state hi1 hd1 hens hdec

/-- Witness for C6: a zero-byte read over a one-byte buffer yields the
unexpected-EOF error, and a poll after end-of-stream returns
end-of-stream again. -/
theorem C6_eof_discrimination_witness :
    pollNext (fun _ => ParseOut.incomplete (some 5)) ⟨[7], 4096, 0, []⟩ =
      (.eofWithBytes, ⟨[7], 4096, 6, []⟩) ∧
    pollNext (fun _ => ParseOut.incomplete none) ⟨[], 4096, 0, []⟩ =
      (.streamEnd, ⟨[], 4096, 0, []⟩) := by
  constructor
  · have h := (C6_eof_discrimination (fun _ => ParseOut.incomplete (some 5))
      ⟨[7], 4096, 0, []⟩ ⟨[7], 4096, 6, []⟩ ⟨[7], 4096, 6, []⟩ ⟨[], 0, 0, []⟩
      true).1 rfl (by decide) (by decide)
    simpa using h
  · exact (C6_eof_discrimination (fun _ => ParseOut.incomplete none)
      ⟨[], 4096, 0, []⟩ ⟨[], 0, 0, []⟩ ⟨[], 0, 0, []⟩ ⟨[], 4096, 0, []⟩
      true).2 (by simp) (by decide)

/-- C10: after a Continue reply to the literal announcement, append
writes the literal and reads exactly one further response, resolving to
Ok regardless of that response (a tagged NO or BAD completion included);
only an I/O error from that read propagates; and any non-Continue reply
to the announcement fails with Error::Append before the literal is
written. -/
theorem C10_append (i : Option String) (r : Response) (e : String)
    (rest : List StreamItem) :
    appendSession (.ok (.continueReq i) :: .ok r :: rest) = ⟨.ok (), true, rest⟩ ∧
    appendSession (.ok (.continueReq i) :: .error e :: rest) =
      ⟨.error (.ioErr e), true, rest⟩ ∧
    appendSession [.ok (.continueReq i)] = ⟨.ok (), true, []⟩ ∧
    (r.isContinueReq = false →
      appendSession (.ok r :: rest) = ⟨.error .append, false, rest⟩) := by
  refine ⟨rfl, rfl, rfl, ?_⟩
  intro hr
  cases r <;> simp_all [appendSession, Response.isContinueReq]

/-- Witness for C10: a tagged NO read after the literal still yields Ok,
and a tagged BAD in place of the Continue fails with Append. -/
theorem C10_append_witness :
    appendSession [.ok (.continueReq none), .ok (.done "A0001" .no none none)] =
      ⟨.ok (), true, []⟩ ∧
    (Response.done "A0001" .bad none none).isContinueReq = false ∧
    appendSession [.ok (.done "A0001" .bad none none)] =
      ⟨.error .append, false, []⟩ :=
  ⟨(C10_append none (.done "A0001" .no none none) "" []).1, by decide,
    (C10_append none (.done "A0001" .bad none none) "" []).2.2.2 (by decide)⟩

/-- C7: decode is suppressed, without invoking the parser, while the
buffer holds fewer than decode_needs bytes; an Incomplete verdict with a
known minimum sets decode_needs to used + min; an Incomplete verdict of
unknown size clears decode_needs to 0. -/
theorem C7_decode_needs (prs : List Nat → ParseOut) (s : StreamState) (minN : Nat) :
    (s.data.length < s.decodeNeeds → decodeStep prs s = (.ok none, s, false)) ∧
    (s.decodeNeeds ≤ s.data.length → prs s.data = .incomplete (some minN) →
      decodeStep prs s =
        (.ok none, { s with decodeNeeds := s.data.length + minN }, true)) ∧
    (s.decodeNeeds ≤ s.data.length → prs s.data = .incomplete none →
      decodeStep prs s = (.ok none, { s with decodeNeeds := 0 }, true)) := by
  refine ⟨?_, ?_, ?_⟩
  · intro h
    simp [decodeStep, h]
  · intro h1 h2
    simp [decodeStep, Nat.not_lt.mpr h1, h2]
  · intro h1 h2
    simp [decodeStep, Nat.not_lt.mpr h1, h2]

/-- Witness for C7: a parser demanding 7 more bytes on a 2-byte buffer
sets decode_needs to 9, and the following attempt with decode_needs 9 is
suppressed without running the parser. -/
theorem C7_decode_needs_witness :
    decodeStep (fun _ => .incomplete (some 7)) ⟨[1, 2], 4096, 1, []⟩ =
      (.ok none, ⟨[1, 2], 4096, 9, []⟩, true) ∧
    decodeStep (fun _ => .incomplete (some 7)) ⟨[1, 2], 4096, 9, []⟩ =
      (.ok none, ⟨[1, 2], 4096, 9, []⟩, false) :=
  ⟨(C7_decode_needs (fun _ => .incomplete (some 7)) ⟨[1, 2], 4096, 1, []⟩ 7).2.1
      (by decide) rfl,
    (C7_decode_needs (fun _ => .incomplete (some 7)) ⟨[1, 2], 4096, 9, []⟩ 7).1
      (by decide)⟩

/-- C9 (amended): has_str is case-insensitive in the IMAP4rev1 name —
any spelling of imap4rev1 queries the Imap4rev1 variant — and on the set
parsed from CAPABILITY IMAP4REV1 STARTTLS the set holds Imap4rev1 and
Atom STARTTLS, has size 2, and has_str "imap4rev1" is true; Atom lookups
themselves are by exact string equality. -/
theorem C9_capabilities (caps : Capabilities) (s : String) :
    (eqIgnoreAsciiCase s "IMAP4rev1" = true →
      caps.has_str s = caps.has .imap4rev1) ∧
    Capability.imap4rev1 ∈ capsOfTokens ["IMAP4REV1", "STARTTLS"] ∧
    Capability.atom "STARTTLS" ∈ capsOfTokens ["IMAP4REV1", "STARTTLS"] ∧
    (capsOfTokens ["IMAP4REV1", "STARTTLS"]).card = 2 ∧
    (capsOfTokens ["IMAP4REV1", "STARTTLS"]).has_str "imap4rev1" = true := by
  refine ⟨?_, by decide, by decide, by decide, by decide⟩
  intro h
  simp [Capabilities.has_str, h]

/-- Witness for C9: a mixed-case spelling of imap4rev1 satisfies the
hypothesis and queries the Imap4rev1 variant. -/
theorem C9_capabilities_witness :
    eqIgnoreAsciiCase "imap4REV1" "IMAP4rev1" = true ∧
    (capsOfTokens ["IMAP4REV1", "STARTTLS"]).has_str "imap4REV1" =
      (capsOfTokens ["IMAP4REV1", "STARTTLS"]).has .imap4rev1 :=
  ⟨by decide, (C9_capabilities (capsOfTokens ["IMAP4REV1", "STARTTLS"]) "imap4REV1").1
    (by decide)⟩

/-- Counterexample to C9 as stated: membership queries are not
case-insensitive for every capability name — on the set parsed from
CAPABILITY IMAP4REV1 STARTTLS, the query STARTTLS succeeds but the
equal-ignoring-case query starttls fails, because Atom lookups compare
exactly. -/
theorem C9_counterexample :
    eqIgnoreAsciiCase "starttls" "STARTTLS" = true ∧
    (capsOfTokens ["IMAP4REV1", "STARTTLS"]).has_str "STARTTLS" = true ∧
    (capsOfTokens ["IMAP4REV1", "STARTTLS"]).has_str "starttls" = false := by
  refine ⟨by decide, by decide, by decide⟩

/-- C1 (amended): check_ok fails with ConnectionLost at stream end and
propagates I/O errors; a Done with status OK and a non-matching tag is
passed to the unsolicited handler — which routes no Done view, leaving
the channel unchanged — and pulling continues; a Done with status OK and
the matching tag succeeds; a Done with status NO or BAD fails with
Error::No or Error::Bad carrying code and information regardless of its
tag. -/
theorem C1_check_ok (id t e : String) (code info : Option String)
    (rest : List StreamItem) (chan : List UnsolicitedResponse) :
    check_ok id true [] chan = (.error .connectionLost, chan) ∧
    check_ok id true (.error e :: rest) chan = (.error (.ioErr e), chan) ∧
    (t ≠ id → check_ok id true (.ok (.done t .ok code info) :: rest) chan =
      check_ok id true rest chan) ∧
    check_ok id true (.ok (.done id .ok code info) :: rest) chan = (.ok (), chan) ∧
    check_ok id true (.ok (.done t .no code info) :: rest) chan =
      (.error (.no code info), chan) ∧
    check_ok id true (.ok (.done t .bad code info) :: rest) chan =
      (.error (.bad code info), chan) := by
  refine ⟨rfl, rfl, ?_, ?_, rfl, rfl⟩
  · intro h
    simp [check_ok, h, handle_unilateral]
  · simp [check_ok]

/-- Witness for C1: a non-matching OK completion is skipped with the
channel untouched, so the lost stream that follows yields
ConnectionLost. -/
theorem C1_check_ok_witness :
    ("A0002" ≠ "A0001") ∧
    check_ok "A0001" true [.ok (.done "A0002" .ok none none)] [] =
      check_ok "A0001" true [] [] :=
  ⟨by decide, (C1_check_ok "A0001" "A0002" "" none none [] []).2.2.1 (by decide)⟩

/-- Counterexample to C1 as stated: a Done with a different tag and
status NO makes check_ok fail immediately with Error::No instead of
being routed to the sink and pulling continuing (which would end in
ConnectionLost here). -/
theorem C1_check_ok_counterexample :
    check_ok "A0001" true [.ok (.done "A0002" .no none none)] [] =
      (.error (.no none none), []) ∧
    check_ok_claim "A0001" true [.ok (.done "A0002" .no none none)] [] =
      (.error .connectionLost, [.statusR "A0002"]) ∧
    (Error.no none none ≠ Error.connectionLost) := by
  refine ⟨by decide, by decide, by decide⟩

/-- C5 (amended): the IDLE wait future silently consumes untagged OK
status views and Continue views; a Done view is handed to the unilateral
handler, which routes only status/recent/exists/expunge data, so the
Done is discarded and the channel is unchanged while waiting continues;
the first view of no such kind resolves the future to NewData; stream
interruption or exhaustion resolves to ManualInterrupt and an I/O error
propagates. -/
theorem C5_idle_wait (items : List IdleItem) (chan : List UnsolicitedResponse)
    (r : Response) (tag : String) (status : Status) (code info : Option String)
    (e : String) :
    waitIdle [] chan = (.ok .manualInterrupt, chan) ∧
    waitIdle (.interrupt :: items) chan = (.ok .manualInterrupt, chan) ∧
    waitIdle (.ioError e :: items) chan = (.error (.ioErr e), chan) ∧
    (∀ c i, waitIdle (.resp (.data .ok c i) :: items) chan = waitIdle items chan) ∧
    (∀ i, waitIdle (.resp (.continueReq i) :: items) chan = waitIdle items chan) ∧
    waitIdle (.resp (.done tag status code info) :: items) chan =
      waitIdle items chan ∧
    (r.idleHandled = false →
      waitIdle (.resp r :: items) chan = (.ok (.newData r), chan)) := by
  refine ⟨rfl, rfl, rfl, fun c i => rfl, fun i => rfl, ?_, ?_⟩
  · simp [waitIdle, handle_unilateral]
  · intro h
    cases r with
    | done t' s' c' i' => simp [Response.idleHandled] at h
    | data s' c' i' => cases s' <;> simp_all [waitIdle, Response.idleHandled]
    | continueReq i' => simp [Response.idleHandled] at h
    | mailboxData d => rfl
    | expunge n => rfl
    | fetch n => rfl
    | other => rfl

/-- Witness for C5: an untagged FETCH view resolves the wait to NewData
with the channel untouched. -/
theorem C5_idle_wait_witness :
    (Response.fetch 3).idleHandled = false ∧
    waitIdle [.resp (.fetch 3)] [] = (.ok (.newData (.fetch 3)), []) :=
  ⟨by decide,
    (C5_idle_wait [] [] (.fetch 3) "" .ok none none "").2.2.2.2.2.2 (by decide)⟩

/-- Counterexample to C5 as stated: a Done view reaching the wait loop
is dropped — the unsolicited channel stays empty — whereas the claim
requires it to be routed to the channel. -/
theorem C5_idle_wait_counterexample :
    waitIdle [.resp (.done "A0001" .ok none none)] [] = (.ok .manualInterrupt, []) ∧
    waitIdle_claim [.resp (.done "A0001" .ok none none)] [] =
      (.ok .manualInterrupt, [.statusR "A0001"]) ∧
    ([] : List UnsolicitedResponse) ≠ [.statusR "A0001"] := by
  refine ⟨by decide, by decide, by decide⟩

/-- C2 (amended): the AUTHENTICATE handshake reads one response; on a
Continue it decodes the challenge, writes the base64-encoded
authenticator reply and immediately returns the session without awaiting
the tagged completion (the remaining stream is untouched); on a
non-Continue response it reads exactly one further item and returns the
session when one exists; connection loss, I/O errors and invalid base64
hand the original client back alongside the error. -/
theorem C2_auth_handshake (d : String → Option (List Nat)) (e : List Nat → String)
    (p : List Nat → List Nat) (rest : List StreamItem) (text msg : String)
    (r : Response) :
    do_auth_handshake d e p [] = ⟨.error .connectionLost, true, [], []⟩ ∧
    do_auth_handshake d e p (.error msg :: rest) =
      ⟨.error (.ioErr msg), true, [], rest⟩ ∧
    (d text = none →
      do_auth_handshake d e p (.ok (.continueReq (some text)) :: rest) =
        ⟨.error (.parseAuth text), true, [], rest⟩) ∧
    (∀ ch, d text = some ch →
      do_auth_handshake d e p (.ok (.continueReq (some text)) :: rest) =
        ⟨.ok (), false, [e (p ch)], rest⟩) ∧
    do_auth_handshake d e p (.ok (.continueReq none) :: rest) =
      ⟨.ok (), false, [e (p [])], rest⟩ ∧
    (r.isContinueReq = false → ∀ item rest2,
      do_auth_handshake d e p (.ok r :: item :: rest2) =
        ⟨.ok (), false, [], rest2⟩) ∧
    (r.isContinueReq = false →
      do_auth_handshake d e p [.ok r] = ⟨.error .connectionLost, true, [], []⟩) := by
  refine ⟨rfl, rfl, ?_, ?_, rfl, ?_, ?_⟩
  · intro h
    simp [do_auth_handshake, h]
  · intro ch h
    simp [do_auth_handshake, h]
  · intro h item rest2
    cases r <;> simp_all [do_auth_handshake, Response.isContinueReq]
  · intro h
    cases r <;> simp_all [do_auth_handshake, Response.isContinueReq]

/-- Witness for C2: answering a challenge returns the session with the
tagged completion still unread in the remaining stream. -/
theorem C2_auth_handshake_witness :
    ((fun _ : String => some ([] : List Nat)) "YmFy" = some []) ∧
    do_auth_handshake (fun _ => some []) (fun _ => "Zm9v") (fun _ => [])
        (.ok (.continueReq (some "YmFy")) :: [.ok (.done "A0001" .ok none none)]) =
      ⟨.ok (), false, ["Zm9v"], [.ok (.done "A0001" .ok none none)]⟩ :=
  ⟨rfl,
    (C2_auth_handshake (fun _ => some []) (fun _ => "Zm9v") (fun _ => [])
        [.ok (.done "A0001" .ok none none)] "YmFy" "" .other).2.2.2.1 [] rfl⟩

/-- Counterexample to C2 as stated: with a challenge followed by a
tagged NO, the source returns the session successfully, never consuming
the NO, whereas awaiting the tagged completion as claimed would fail
with Error::No and hand the client back. -/
theorem C2_auth_counterexample :
    do_auth_handshake (fun _ => some []) (fun _ => "Zm9v") (fun _ => [])
        [.ok (.continueReq none), .ok (.done "A0001" .no none none)] =
      ⟨.ok (), false, ["Zm9v"], [.ok (.done "A0001" .no none none)]⟩ ∧
    do_auth_handshake_claim (fun _ => some []) (fun _ => "Zm9v") (fun _ => [])
        "A0001" [.ok (.continueReq none), .ok (.done "A0001" .no none none)] [] =
      ⟨.error (.no none none), true, ["Zm9v"], []⟩ ∧
    ((Except.ok () : Except Error Unit) ≠ .error (.no none none)) := by
  refine ⟨by decide, by decide, by decide⟩

end AsyncImap
